import Mathlib

/-!
Verification of `dyneusr/core.py` (class `DyNeuGraph`).

The Python source is shallowly embedded below.  Python dictionaries are
association lists `List (String × α)` whose update keeps the insertion
position of an existing key and appends a new key at the end, matching
CPython semantics.  The two external calls `tools.process_graph` and
`tools.extract_matrices` live outside the checked sources, so functions that
invoke them take their outcome as an argument (an `Except` value); everything
else is translated line by line from `core.py`.
-/

namespace Dyneusr

/-- Python scalar values, as far as the claims need them. -/
inductive PyVal where
  | none
  | bool (b : Bool)
  | int (n : Int)
  | str (s : String)
  deriving DecidableEq, Repr, Inhabited

/-- Python `d[k] = v` on a dict represented as an association list: replace the
value of an existing key in place, otherwise append the new key at the end. -/
def pyDictSet {α : Type} (d : List (String × α)) (k : String) (v : α) :
    List (String × α) :=
  match d with
  | [] => [(k, v)]
  | kv :: tl => if kv.1 = k then (k, v) :: tl else kv :: pyDictSet tl k v

/-- Python `d.update(u)`: apply `pyDictSet` for each pair of `u` in order. -/
def pyDictUpdate {α : Type} (d u : List (String × α)) : List (String × α) :=
  u.foldl (fun acc kv => pyDictSet acc kv.1 kv.2) d

/-- Python `d.get(k)` with its default of `None`. -/
def pyDictGet (d : List (String × PyVal)) (k : String) : PyVal :=
  (d.lookup k).getD PyVal.none

/-! ### The `cache` method (`core.py` lines 52-66)

```
def cache(self, *args, **kwargs):
    if len(args):
        for _ in args:
            if self.cache_.get(_) is None:
                continue
            return self.cache_.get(_)
        return None
    self.cache_.update(kwargs)
    return self.cache_
```
-/

/-- The loop of `cache` over the positional arguments: skip keys whose stored
value is `None`, return the first stored value that is not `None`,
fall through to `None`. -/
def cacheArgLoop (c : List (String × PyVal)) : List String → PyVal
  | [] => PyVal.none
  | a :: rest =>
    if pyDictGet c a = PyVal.none then cacheArgLoop c rest else pyDictGet c a

/-- Result of a `cache` call: either a looked-up value or the cache dict. -/
inductive CacheResult where
  | value (v : PyVal)
  | dict (d : List (String × PyVal))
  deriving DecidableEq, Repr

/-- Embedding of `DyNeuGraph.cache` (`core.py` lines 52-66): returns the
updated `cache_` field together with the returned Python value. -/
def cacheCall (c : List (String × PyVal)) (args : List String)
    (kwargs : List (String × PyVal)) : List (String × PyVal) × CacheResult :=
  if args.length ≠ 0 then
    (c, CacheResult.value (cacheArgLoop c args))
  else
    let c' := pyDictUpdate c kwargs
    (c', CacheResult.dict c')

/-! ### Mixture derivation (`core.py` line 122 and line 191)

```
mixtures = [_.nonzero()[0] for _ in TCM]
```

A matrix is a list of rows of integers; `row.nonzero()[0]` is the ascending
list of column indices holding a non-zero entry. -/

/-- `numpy` `row.nonzero()[0]`: ascending indices of the non-zero entries. -/
def rowNonzero (row : List Int) : List Nat :=
  (List.range row.length).filter (fun j => row.getD j 0 ≠ 0)

/-- Embedding of `mixtures = [_.nonzero()[0] for _ in TCM]`. -/
def mixtures (tcm : List (List Int)) : List (List Nat) :=
  tcm.map rowNonzero

/-! ### Graph normalization (`core.py` lines 84-92)

```
if isinstance(G, nx.Graph):
    g = G.copy()
    G = nx.node_link_data(g)
elif G is None:
    G = {}
G = dict(dict(nodes={}, links={}), **G)
```
-/

/-- Python/JSON-style values appearing in the graph dictionaries. -/
inductive JVal where
  | vnone
  | vbool (b : Bool)
  | vint (n : Int)
  | vstr (s : String)
  | vlist (l : List JVal)
  | vdict (d : List (String × JVal))

/-- A networkx graph object, to the extent `node_link_data` serializes it. -/
structure NxGraph where
  directed : Bool
  graphAttrs : List (String × JVal)
  nodeIds : List String
  edges : List (String × String)

/-- Model of `networkx.node_link_data`: serializes a graph object into a dict
carrying the keys `directed`, `multigraph`, `graph`, `nodes` and `links`. -/
def nodeLinkData (g : NxGraph) : List (String × JVal) :=
  [("directed", JVal.vbool g.directed),
   ("multigraph", JVal.vbool false),
   ("graph", JVal.vdict g.graphAttrs),
   ("nodes", JVal.vlist (g.nodeIds.map (fun n => JVal.vdict [("id", JVal.vstr n)]))),
   ("links", JVal.vlist (g.edges.map (fun e =>
      JVal.vdict [("source", JVal.vstr e.1), ("target", JVal.vstr e.2)])))]

/-- The three shapes the `G` argument of `fit` can take (lines 85-89). -/
inductive GInput where
  | nxGraph (g : NxGraph)
  | serialized (d : List (String × JVal))
  | noneInput

/-- Embedding of lines 84-92 of `core.py`: an `nx.Graph` is copied and
serialized, `None` becomes `{}`, and the result is merged over the default
skeleton `dict(nodes={}, links={})`. -/
def checkGraph (G : GInput) : List (String × JVal) :=
  let Gd := match G with
    | GInput.nxGraph g => nodeLinkData g
    | GInput.noneInput => []
    | GInput.serialized d => d
  pyDictUpdate [("nodes", JVal.vdict []), ("links", JVal.vdict [])] Gd

/-! ### Time index set (`core.py` lines 95-101)

```
data_ids = np.unique([_ for n,d in G['nodes'].items() for _ in d])
if y is not None:
    if isinstance(y, pd.DataFrame):
        data_ids = np.sort(y.reset_index().index)
    else:
        data_ids = np.arange(len(y))
```
-/

/-- The `y` argument of `fit`: absent, a pandas DataFrame (carrying its row
index labels), or a plain sequence of labels of a given length. -/
inductive YInput where
  | noneY
  | dataFrame (index : List Int)
  | seq (len : Nat)
  deriving DecidableEq, Repr

/-- numpy `np.unique`: the sorted list of the distinct elements. -/
def npUnique {α : Type} [LinearOrder α] (l : List α) : List α :=
  l.toFinset.sort (· ≤ ·)

/-- pandas `y.reset_index().index`: the positions `0..len(y)-1`; the original
row index labels are discarded by `reset_index`. -/
def resetIndexIndex (index : List Int) : List Int :=
  (List.range index.length).map Int.ofNat

/-- numpy `np.sort` (a comparison sort). -/
def npSort (l : List Int) : List Int := l.insertionSort (· ≤ ·)

/-- numpy `np.arange n`. -/
def npArange (n : Nat) : List Int := (List.range n).map Int.ofNat

/-- Embedding of lines 95-101 of `core.py`: the time index set stored as
`data_ids_`.  `nodes` is the `G['nodes']` dict mapping node key to its member
index list. -/
def dataIdsOfFit (nodes : List (String × List Int)) (y : YInput) : List Int :=
  match y with
  | YInput.noneY => npUnique (nodes.flatMap (fun nd => nd.2))
  | YInput.dataFrame index => npSort (resetIndexIndex index)
  | YInput.seq n => npArange n

/-- The time index set as claim C3 describes it: a DataFrame contributes its
own row index, a plain sequence contributes `0..len-1`, an absent `y` gives
the union of member indices over all nodes.  Stated from the claim's words for
comparison with `dataIdsOfFit`. -/
def dataIdsClaimed (nodes : List (String × List Int)) (y : YInput) : List Int :=
  match y with
  | YInput.noneY => npUnique (nodes.flatMap (fun nd => nd.2))
  | YInput.dataFrame index => index
  | YInput.seq n => npArange n

/-! ### Graphs, annotation, and the stored state -/

/-- A networkx graph as the annotation methods see it: ordered node list with
attribute dicts, edge list with attribute dicts, and graph-level attrs. -/
structure Graph where
  nodes : List (String × List (String × PyVal))
  edges : List ((String × String) × List (String × PyVal))
  graphAttrs : List (String × PyVal)
  deriving DecidableEq, Repr, Inhabited

/-- networkx `set_node_attributes(G, values, name)` with `values` a dict keyed
by node: each node present in `values` gets attribute `name`; nodes absent
from `values` are untouched. -/
def set_node_attributes (g : Graph) (values : List (String × PyVal))
    (name : String) : Graph :=
  { g with nodes := g.nodes.map (fun nd =>
      match values.lookup nd.1 with
      | some v => (nd.1, pyDictSet nd.2 name v)
      | none => nd) }

/-- networkx `set_edge_attributes(G, values, name)` with `values` keyed by
edge pair. -/
def set_edge_attributes (g : Graph)
    (values : List ((String × String) × PyVal)) (name : String) : Graph :=
  { g with edges := g.edges.map (fun ed =>
      match values.find? (fun kv => kv.1 = ed.1) with
      | some kv => (ed.1, pyDictSet ed.2 name kv.2)
      | none => ed) }

/-- The shapes an annotation value container can take in `annotate_nodes` and
`annotate_members` (`core.py` lines 233-239 and 266-272). -/
inductive AnnValues where
  | arr (l : List PyVal)
  | dict (d : List (String × PyVal))
  | list (l : List PyVal)
  | scalar (v : PyVal)
  deriving DecidableEq, Repr

/-- Lines 234-239 of `annotate_nodes`: a numpy array becomes `list(values)`, a
dict contributes `values.keys()`, a non-list scalar is broadcast over the
nodes of `self.G_`, a list is used as-is. -/
def annValuesList (g : Graph) : AnnValues → List PyVal
  | AnnValues.arr l => l
  | AnnValues.dict d => d.map (fun kv => PyVal.str kv.1)
  | AnnValues.list l => l
  | AnnValues.scalar v => g.nodes.map (fun _ => v)

/-- Lines 267-272 of `annotate_members`: same normalization except a scalar
becomes the singleton `[values]`. -/
def annValuesListMembers : AnnValues → List PyVal
  | AnnValues.arr l => l
  | AnnValues.dict d => d.map (fun kv => PyVal.str kv.1)
  | AnnValues.list l => l
  | AnnValues.scalar v => [v]

/-- Line 240: `values = {n: value for n, value in zip(self.G_, values)}`.
Iterating a networkx graph yields its node keys, and `zip` truncates to the
shorter sequence without raising. -/
def zipNodeValues (g : Graph) (vals : List PyVal) : List (String × PyVal) :=
  (g.nodes.map (fun nd => nd.1)).zip vals

/-- The stored fitted state of a DyNeuGraph instance (the fields assigned at
`core.py` lines 80-82 and 126-133). -/
structure DGState where
  G_input_ : Option Graph
  X_ : PyVal
  y_ : YInput
  G_ : Graph
  G_data_ : Graph
  node_ids_ : List String
  data_ids_ : List Int
  adj_ : List (List Int)
  map_ : List (List Int)
  tcm_ : List (List Int)
  mixtures_ : List (List Nat)
  deriving DecidableEq, Repr

/-- Python exceptions the embedded methods can raise. -/
inductive PyErr where
  | nameError (n : String)
  | attributeError (n : String)
  | typeError
  | schemaMismatch
  deriving DecidableEq, Repr

/-- Embedding of `DyNeuGraph.fit` (`core.py` lines 70-140).  The external
calls `tools.process_graph` (line 104) and `tools.extract_matrices` (line
105) live outside the checked sources, so their outcomes are arguments.
`canonNodes` is the node/member view of `G['nodes']` read at lines 95-96 and
`Gdata` the value stored at line 127.  On a raise, the error is returned
together with the instance state at that moment: lines 80-82 have already
stored the inputs before any later stage runs. -/
def fitRun (st : DGState) (G : Option Graph) (X : PyVal) (y : YInput)
    (canonNodes : List (String × List Int)) (Gdata : Graph)
    (processGraph : Except PyErr Graph)
    (extractMatrices :
      Graph → Except PyErr (List (List Int) × List (List Int) × List (List Int))) :
    Except (PyErr × DGState) DGState :=
  let st1 := { st with G_input_ := G, X_ := X, y_ := y }
  let node_ids := npUnique (canonNodes.map (fun nd => nd.1))
  let data_ids := dataIdsOfFit canonNodes y
  match processGraph with
  | Except.error e => Except.error (e, st1)
  | Except.ok g =>
    match extractMatrices g with
    | Except.error e => Except.error (e, st1)
    | Except.ok (A, M, TCM) =>
      Except.ok
        { st1 with
          G_ := g
          G_data_ := Gdata
          node_ids_ := node_ids
          data_ids_ := data_ids
          adj_ := A
          map_ := M
          tcm_ := TCM
          mixtures_ := mixtures TCM }

/-- Names bound at module level in `core.py` (the imports and the class). -/
def moduleGlobals : List String :=
  ["os", "json", "np", "pd", "nx", "BaseEstimator", "TransformerMixin",
   "datasets", "visuals", "tools", "DyNeuGraph"]

/-- Local names bound in `transform` when line 184 executes: the parameters
and the tuple unpacking at line 181. -/
def transformLocals : List String := ["self", "X", "y", "A", "M", "TCM"]

/-- Embedding of `DyNeuGraph.transform` (`core.py` lines 172-199).  The
outcome of `tools.extract_matrices(self.G_)` (line 181) is an argument.  Line
184 evaluates the bare name `G_data`, which is bound neither among the locals
nor at module level, so Python raises `NameError` there; were the name bound,
execution would continue and store the new matrices (lines 190-199).  On a
raise the error is returned with the instance state at that moment. -/
def transformRun (st : DGState)
    (extractRes : List (List Int) × List (List Int) × List (List Int)) :
    Except (PyErr × DGState) (DGState × List (List Int)) :=
  let (A, M, TCM) := extractRes
  if "G_data" ∈ transformLocals ∨ "G_data" ∈ moduleGlobals then
    Except.ok
      ({ st with
          adj_ := A
          map_ := M
          tcm_ := TCM
          mixtures_ := mixtures TCM },
        TCM)
  else
    Except.error (PyErr.nameError "G_data", st)

/-- Embedding of `DyNeuGraph.annotate_nodes` (lines 215-245) for one
`name=values` keyword argument. -/
def annotate_nodes (st : DGState) (name : String) (values : AnnValues) :
    DGState :=
  { st with
    G_ := set_node_attributes st.G_
            (zipNodeValues st.G_ (annValuesList st.G_ values)) name }

/-- Embedding of `DyNeuGraph.annotate_members` (lines 248-278) for one
keyword argument: same shape, zipped against `self.G_data_`. -/
def annotate_members (st : DGState) (name : String) (values : AnnValues) :
    DGState :=
  { st with
    G_data_ := set_node_attributes st.G_data_
                 ((st.G_data_.nodes.map (fun nd => nd.1)).zip
                   (annValuesListMembers values)) name }

/-- Embedding of `DyNeuGraph.annotate_graph` (lines 281-285):
`self.G_.graph.update(**kwargs)`. -/
def annotate_graph (st : DGState) (kwargs : List (String × PyVal)) : DGState :=
  { st with G_ :=
      { st.G_ with graphAttrs := pyDictUpdate st.G_.graphAttrs kwargs } }

/-! ### Which instance attributes each method binds (`core.py`) -/

/-- The public methods of `DyNeuGraph`. -/
inductive DGMethod where
  | init | fit | transform | fit_transform | sample | annotate
  | annotate_nodes | annotate_members | annotate_graph | visualize | cache
  deriving DecidableEq, Repr

/-- Attributes assigned by `fit` (lines 80-82, 126-133 and 136-139). -/
def fitAssigns : List String :=
  ["G_input_", "X_", "y_", "G_", "G_data_", "node_ids_", "data_ids_",
   "adj_", "map_", "tcm_", "mixtures_", "G", "A", "M", "TCM"]

/-- The instance attributes each method binds, from the assignment statements
in `core.py`: `__init__` binds `cache_` (line 48) then calls `fit` (line 49);
`transform` raises `NameError` at line 184 before reaching its assignments at
lines 194-198, so it binds nothing; the three `annotate_*` helpers and
`cache` mutate existing objects without binding a new instance attribute. -/
def methodAssigns : DGMethod → List String
  | DGMethod.init => "cache_" :: fitAssigns
  | DGMethod.fit => fitAssigns
  | DGMethod.transform => []
  | DGMethod.fit_transform => fitAssigns
  | DGMethod.sample => ["mixtures_img_"]
  | DGMethod.annotate => ["G_", "annotations_"]
  | DGMethod.annotate_nodes => []
  | DGMethod.annotate_members => []
  | DGMethod.annotate_graph => []
  | DGMethod.visualize => ["node_link_data_", "HTTP"]
  | DGMethod.cache => []

/-- Instance attributes bound after a sequence of method calls on a fresh
instance. -/
def assignedAttrs (calls : List DGMethod) : List String :=
  calls.flatMap methodAssigns

/-- Embedding of `DyNeuGraph.inverse_transform` (lines 143-146): reading
`self.G_inverse_` raises `AttributeError` when that attribute was never
bound. -/
def inverse_transformRun (attrs : List String) : Except PyErr Unit :=
  if "G_inverse_" ∈ attrs then Except.ok ()
  else Except.error (PyErr.attributeError "G_inverse_")

/-! ### Object identity during fit (`core.py` lines 84-119) -/

/-- Heap of graph objects; a reference is a position, allocation appends. -/
abbrev Heap := List Graph

/-- networkx `G.copy()` reads the referenced graph; the fresh object it
returns is allocated by `fitGraphPhase` below. -/
def graphCopy (h : Heap) (r : Nat) : Graph := h.getD r default

/-- Lines 114-116: `nx.set_node_attributes(G, dict(node_data[k]), k)` for
each key of `node_data`. -/
def applyNodeData (g : Graph)
    (nodeData : List (String × List (String × PyVal))) : Graph :=
  nodeData.foldl (fun g kd => set_node_attributes g kd.2 kd.1) g

/-- Lines 117-119: `nx.set_edge_attributes(G, dict(edge_data[k]), k)` for
each key of `edge_data`. -/
def applyEdgeData (g : Graph)
    (edgeData : List (String × List ((String × String) × PyVal))) : Graph :=
  edgeData.foldl (fun g kd => set_edge_attributes g kd.2 kd.1) g

/-- Object-level embedding of the graph phase of `fit` (lines 84-119),
tracking which heap objects are written.  Line 86 `g = G.copy()` allocates a
fresh copy of the caller's graph; line 92 builds a fresh dict from it;
`tools.process_graph` (line 104, outside the checked sources) returns the
processed graph, modelled as a fresh allocation derived from that fresh dict;
lines 113-119 then mutate only the processed graph.  Returns the heap and the
reference to the processed graph. -/
def fitGraphPhase (h : Heap) (gref : Option Nat) (processed : Graph)
    (nodeData : List (String × List (String × PyVal)))
    (edgeData : List (String × List ((String × String) × PyVal))) :
    Heap × Nat :=
  let h1 := match gref with
    | some r => h ++ [graphCopy h r]
    | none => h
  let pr := h1.length
  let h2 := h1 ++ [processed]
  let h3 := h2.set pr (applyEdgeData (applyNodeData processed nodeData) edgeData)
  (h3, pr)

/-! ### Concrete instances used by the witnesses and counterexamples -/

/-- An empty graph object. -/
def exGraph : Graph := { nodes := [], edges := [], graphAttrs := [] }

/-- A freshly constructed two-node graph. -/
def exGraph2 : Graph :=
  { nodes := [("a", []), ("b", [])], edges := [], graphAttrs := [] }

/-- A concrete fitted state. -/
def exState : DGState :=
  { G_input_ := none
    X_ := PyVal.int 0
    y_ := YInput.noneY
    G_ := exGraph
    G_data_ := exGraph
    node_ids_ := []
    data_ids_ := []
    adj_ := []
    map_ := []
    tcm_ := []
    mixtures_ := [] }

/-- The state left behind by a failing `fit` call on `exState`. -/
def exStateErr : DGState := { exState with X_ := PyVal.int 1 }

/-- A fitted state whose stored graph has two nodes. -/
def exState8 : DGState :=
  { G_input_ := none
    X_ := PyVal.none
    y_ := YInput.noneY
    G_ := exGraph2
    G_data_ := exGraph2
    node_ids_ := ["a", "b"]
    data_ids_ := []
    adj_ := []
    map_ := []
    tcm_ := []
    mixtures_ := [] }

/-- The TCM of the spec's two-node, two-overlap scenario (§8 item 6). -/
def tcmEx : List (List Int) := [[1, 1, 1, 0], [1, 1, 1, 0], [1, 1, 1, 1], [0, 0, 1, 1]]

/-! ## Helper lemmas -/

theorem lookup_cons_eq {α : Type} (a k : String) (b : α)
    (tl : List (String × α)) :
    ((a, b) :: tl).lookup k = if k = a then some b else tl.lookup k := by
  by_cases h : k = a
  · subst h
    simp [List.lookup]
  · have hb : (k == a) = false := beq_eq_false_iff_ne.mpr h
    simp [List.lookup, hb, h]

theorem lookup_nil_eq {α : Type} (k : String) :
    (([] : List (String × α)).lookup k) = none := rfl

theorem lookup_pyDictSet {α : Type} (d : List (String × α)) (k k' : String)
    (v : α) :
    (pyDictSet d k v).lookup k' = if k' = k then some v else d.lookup k' := by
  induction d with
  | nil =>
    show ((k, v) :: []).lookup k' = _
    rw [lookup_cons_eq, lookup_nil_eq]
  | cons kv tl ih =>
    obtain ⟨a, b⟩ := kv
    simp only [pyDictSet]
    by_cases h1 : a = k
    · rw [if_pos h1, lookup_cons_eq, lookup_cons_eq]
      subst h1
      by_cases h2 : k' = a <;> simp [h2]
    · rw [if_neg h1, lookup_cons_eq, ih, lookup_cons_eq]
      by_cases h2 : k' = a
      · subst h2
        simp [h1]
      · simp [h2]

theorem isSome_lookup_pyDictUpdate {α : Type} (d u : List (String × α))
    (k : String) (h : (d.lookup k).isSome) :
    ((pyDictUpdate d u).lookup k).isSome := by
  induction u generalizing d with
  | nil => exact h
  | cons kv tl ih =>
    refine ih (pyDictSet d kv.1 kv.2) ?_
    rw [lookup_pyDictSet]
    by_cases hk : k = kv.1 <;> simp [hk, h]

theorem cacheArgLoop_eq_find (c : List (String × PyVal)) (args : List String) :
    cacheArgLoop c args =
      match args.find? (fun a => pyDictGet c a ≠ PyVal.none) with
      | some a => pyDictGet c a
      | none => PyVal.none := by
  induction args with
  | nil => simp [cacheArgLoop]
  | cons a rest ih =>
    by_cases h : pyDictGet c a = PyVal.none
    · simp [cacheArgLoop, h, List.find?, ih]
    · simp [cacheArgLoop, h, List.find?]

theorem mem_rowNonzero (row : List Int) (j : Nat) :
    j ∈ rowNonzero row ↔ j < row.length ∧ row.getD j 0 ≠ 0 := by
  simp [rowNonzero, List.mem_filter, List.mem_range]

theorem rowNonzero_sorted (row : List Int) :
    List.Sorted (· < ·) (rowNonzero row) :=
  (List.pairwise_lt_range row.length).filter _

theorem getD_eq_getElem_of_lt {α : Type} (l : List α) (i : Nat) (d : α)
    (hi : i < l.length) : l.getD i d = l[i] := by
  rw [List.getD_eq_getElem?_getD, List.getElem?_eq_getElem hi]
  rfl

theorem getD_map_of_lt {α β : Type} (l : List α) (f : α → β) (i : Nat)
    (d : β) (hi : i < l.length) : (l.map f).getD i d = f l[i] := by
  rw [List.getD_eq_getElem?_getD, List.getElem?_map,
    List.getElem?_eq_getElem hi]
  rfl

theorem lookup_zip_nodup {β : Type} (ids : List String) (vals : List β)
    (i : Nat) (hnodup : ids.Nodup) (hi : i < ids.length) :
    (ids.zip vals).lookup ids[i] = vals[i]? := by
  induction ids generalizing vals i with
  | nil => exact absurd hi (by simp)
  | cons a tl ih =>
    cases vals with
    | nil => simp [List.lookup]
    | cons b vt =>
      cases i with
      | zero => simp [List.zip_cons_cons, lookup_cons_eq]
      | succ n =>
        have hn : n < tl.length := by simpa using hi
        have hne : tl[n] ≠ a := by
          intro hc
          exact (List.nodup_cons.mp hnodup).1 (hc ▸ List.getElem_mem hn)
        rw [List.zip_cons_cons]
        simp only [List.getElem_cons_succ]
        rw [lookup_cons_eq, if_neg hne, List.getElem?_cons_succ]
        exact ih vt n (List.nodup_cons.mp hnodup).2 hn

theorem heap_write_fresh {α : Type} (l : List α) (p v : α) (r : Nat)
    (hr : r < l.length) :
    ((l ++ [p]).set l.length v)[r]? = l[r]? := by
  rw [List.getElem?_set_ne (by omega), List.getElem?_append, if_pos hr]

/-! ## Claim theorems -/

/-- C10: when `cache` is called with keyword arguments only, it updates the
cache dict with those pairs and returns the whole dict; when called with
positional keys it returns the stored value of the first key whose stored
value is not `None` (scanning the keys in argument order), `None` when no
such key exists, and leaves the cache dict unchanged. -/
theorem cache_spec (c : List (String × PyVal)) (args : List String)
    (kwargs : List (String × PyVal)) :
    (args = [] →
      cacheCall c args kwargs =
        (pyDictUpdate c kwargs, CacheResult.dict (pyDictUpdate c kwargs))) ∧
    (args ≠ [] →
      cacheCall c args kwargs =
        (c, CacheResult.value
          (match args.find? (fun a => pyDictGet c a ≠ PyVal.none) with
           | some a => pyDictGet c a
           | none => PyVal.none))) := by
  constructor
  · intro h
    subst h
    simp [cacheCall]
  · intro h
    have hl : args.length ≠ 0 := by
      cases args with
      | nil => exact absurd rfl h
      | cons a t => simp
    simp [cacheCall, hl, cacheArgLoop_eq_find]

/-- Witness for `cache_spec`: a keyword-only call appends the new pair and
returns the dict; a positional call skips a key stored as `None`-less
(absent) and returns the first non-`None` stored value, without touching the
dict. -/
theorem cache_spec_witness :
    cacheCall [("k", PyVal.int 7)] [] [("j", PyVal.int 3)] =
      ([("k", PyVal.int 7), ("j", PyVal.int 3)],
        CacheResult.dict [("k", PyVal.int 7), ("j", PyVal.int 3)]) ∧
    cacheCall [("k", PyVal.int 7)] ["nope", "k"] [] =
      ([("k", PyVal.int 7)], CacheResult.value (PyVal.int 7)) := by
  constructor
  · exact ((cache_spec [("k", PyVal.int 7)] [] [("j", PyVal.int 3)]).1
      rfl).trans (by rfl)
  · exact ((cache_spec [("k", PyVal.int 7)] ["nope", "k"] []).2
      (by decide)).trans (by rfl)

/-- C4: for every TCM, row `t` of the derived mixtures is sorted in strictly
ascending column order, and a column `t'` belongs to `mixture(t)` exactly
when `TCM[t][t']` is non-zero. -/
theorem mixtures_spec (tcm : List (List Int)) (t t' : Nat)
    (ht : t < tcm.length) (ht' : t' < (tcm.getD t []).length) :
    List.Sorted (· < ·) ((mixtures tcm).getD t []) ∧
    (t' ∈ (mixtures tcm).getD t [] ↔ (tcm.getD t []).getD t' 0 ≠ 0) := by
  have hmap : (mixtures tcm).getD t [] = rowNonzero (tcm.getD t []) := by
    rw [mixtures, getD_map_of_lt _ _ _ _ ht, getD_eq_getElem_of_lt _ _ _ ht]
  constructor
  · rw [hmap]
    exact rowNonzero_sorted _
  · rw [hmap, mem_rowNonzero]
    exact ⟨fun h => h.2, fun h => ⟨ht', h⟩⟩

/-- Witness for `mixtures_spec` on the spec's two-node scenario TCM: row 3 is
sorted and column 2 belongs to `mixture(3)` iff `TCM[3][2]` is non-zero. -/
theorem mixtures_spec_witness :
    List.Sorted (· < ·) ((mixtures tcmEx).getD 3 []) ∧
    (2 ∈ (mixtures tcmEx).getD 3 [] ↔ (tcmEx.getD 3 []).getD 2 0 ≠ 0) :=
  mixtures_spec tcmEx 3 2 (by decide) (by decide)

/-- C3 counterexample: for a DataFrame `y` whose own row index is `[5]`, fit
stores `[0]` — the positional index produced by `reset_index` — and not the
DataFrame's own row index `[5]` that the claim announces. -/
theorem dataIds_dataFrame_counterexample :
    dataIdsOfFit [] (YInput.dataFrame [5]) = [0] ∧
    dataIdsClaimed [] (YInput.dataFrame [5]) = [5] ∧
    dataIdsOfFit [] (YInput.dataFrame [5]) ≠
      dataIdsClaimed [] (YInput.dataFrame [5]) := by
  refine ⟨rfl, rfl, ?_⟩
  decide

/-- C3 (amended): in `fit`, the time index set is determined as follows: if
`y` is a DataFrame the positional indices `0..len(y)-1` are used (the index
is read after `reset_index`, which discards the DataFrame's own row index);
if `y` is a plain sequence the indices `0..len(y)-1` are used; if `y` is
`None` it is the sorted, duplicate-free union of all member indices
referenced across all nodes of the input graph. -/
theorem dataIds_spec (nodes : List (String × List Int)) (index : List Int)
    (n : Nat) (m : Int) :
    (m ∈ dataIdsOfFit nodes YInput.noneY ↔ ∃ nd ∈ nodes, m ∈ nd.2) ∧
    List.Sorted (· ≤ ·) (dataIdsOfFit nodes YInput.noneY) ∧
    (dataIdsOfFit nodes YInput.noneY).Nodup ∧
    dataIdsOfFit nodes (YInput.dataFrame index) = npArange index.length ∧
    dataIdsOfFit nodes (YInput.seq n) = npArange n := by
  refine ⟨?_, ?_, ?_, ?_, rfl⟩
  · simp [dataIdsOfFit, npUnique, Finset.mem_sort, List.mem_toFinset,
      List.mem_flatMap]
  · unfold dataIdsOfFit npUnique
    exact Finset.sort_sorted _ _
  · unfold dataIdsOfFit npUnique
    exact Finset.sort_nodup _ _
  · show npSort (resetIndexIndex index) = npArange index.length
    unfold npSort resetIndexIndex npArange
    exact List.Sorted.insertionSort_eq
      (List.Pairwise.map Int.ofNat
        (fun a b (h : a < b) => Int.ofNat_le.mpr h.le)
        (List.pairwise_lt_range index.length))

/-- C5: the canonical graph handed to the processing stage always carries
both a `nodes` and a `links` key, whichever of the three input shapes was
given; with no input graph both containers are empty, and a serialized dict
is merged over the default skeleton so neither key can be missing. -/
theorem checkGraph_always_has_nodes_and_links (G : GInput) :
    ((checkGraph G).lookup "nodes").isSome ∧
    ((checkGraph G).lookup "links").isSome ∧
    (checkGraph GInput.noneInput).lookup "nodes" = some (JVal.vdict []) ∧
    (checkGraph GInput.noneInput).lookup "links" = some (JVal.vdict []) := by
  refine ⟨?_, ?_, rfl, rfl⟩ <;>
    cases G <;>
      exact isSome_lookup_pyDictUpdate _ _ _ (by rfl)

/-- C2 counterexample: with a failing processing stage, `fit` has already
overwritten the stored `X_` (lines 80-82 run before any stage), so the state
after the raise differs from the state before the call — the listed field
bundle is not left unmodified. -/
theorem fit_not_atomic_counterexample :
    fitRun exState none (PyVal.int 1) YInput.noneY [] exGraph
        (Except.error PyErr.schemaMismatch)
        (fun _ => Except.error PyErr.schemaMismatch) =
      Except.error (PyErr.schemaMismatch, exStateErr) ∧
    exStateErr.X_ ≠ exState.X_ := by
  constructor
  · rfl
  · decide

/-- C2 (amended): when a stage of the fit pipeline raises, none of the
derived fields (`G_`, `G_data_`, `node_ids_`, `data_ids_`, `adj_`, `map_`,
`tcm_`, `mixtures_`) has been modified — they are replaced only after all
stages succeed — but the input echo fields `G_input_`, `X_`, `y_` have
already been overwritten with the arguments of the call before the first
stage runs. -/
theorem fit_error_preserves_derived_state (st : DGState) (G : Option Graph)
    (X : PyVal) (y : YInput) (canonNodes : List (String × List Int))
    (Gdata : Graph) (processGraph : Except PyErr Graph)
    (extractMatrices :
      Graph → Except PyErr (List (List Int) × List (List Int) × List (List Int)))
    (e : PyErr) (stErr : DGState)
    (h : fitRun st G X y canonNodes Gdata processGraph extractMatrices =
      Except.error (e, stErr)) :
    stErr.G_ = st.G_ ∧ stErr.G_data_ = st.G_data_ ∧
    stErr.node_ids_ = st.node_ids_ ∧ stErr.data_ids_ = st.data_ids_ ∧
    stErr.adj_ = st.adj_ ∧ stErr.map_ = st.map_ ∧ stErr.tcm_ = st.tcm_ ∧
    stErr.mixtures_ = st.mixtures_ ∧
    stErr.G_input_ = G ∧ stErr.X_ = X ∧ stErr.y_ = y := by
  cases processGraph with
  | error e1 =>
    simp only [fitRun] at h
    obtain ⟨-, hst⟩ := Prod.mk.injEq .. ▸ (Except.error.injEq .. ▸ h)
    subst hst
    simp
  | ok g =>
    cases hm : extractMatrices g with
    | error e2 =>
      simp only [fitRun, hm] at h
      obtain ⟨-, hst⟩ := Prod.mk.injEq .. ▸ (Except.error.injEq .. ▸ h)
      subst hst
      simp
    | ok triple =>
      obtain ⟨A, M, TCM⟩ := triple
      simp [fitRun, hm] at h

/-- Witness for `fit_error_preserves_derived_state` at a concrete failing
processing stage. -/
theorem fit_error_preserves_derived_state_witness :
    exStateErr.G_ = exState.G_ ∧ exStateErr.G_data_ = exState.G_data_ ∧
    exStateErr.node_ids_ = exState.node_ids_ ∧
    exStateErr.data_ids_ = exState.data_ids_ ∧
    exStateErr.adj_ = exState.adj_ ∧ exStateErr.map_ = exState.map_ ∧
    exStateErr.tcm_ = exState.tcm_ ∧
    exStateErr.mixtures_ = exState.mixtures_ ∧
    exStateErr.G_input_ = none ∧ exStateErr.X_ = PyVal.int 1 ∧
    exStateErr.y_ = YInput.noneY :=
  fit_error_preserves_derived_state exState none (PyVal.int 1) YInput.noneY
    [] exGraph (Except.error PyErr.schemaMismatch)
    (fun _ => Except.error PyErr.schemaMismatch)
    PyErr.schemaMismatch exStateErr rfl

/-- C1: the claim says `transform` recomputes the matrices from the stored
graph `G_`, stores the new `A`, `M`, `TCM` and mixtures, and returns the
TCM; in the code every call instead raises `NameError` at line 184
(`if G_data is True:`) because the name `G_data` is bound nowhere in scope,
before anything is stored or returned, leaving the instance state as it
was. -/
theorem transform_always_raises_nameError (st : DGState)
    (extractRes : List (List Int) × List (List Int) × List (List Int)) :
    transformRun st extractRes =
      Except.error (PyErr.nameError "G_data", st) := by
  have h : ¬("G_data" ∈ transformLocals ∨ "G_data" ∈ moduleGlobals) := by
    decide
  obtain ⟨A, M, TCM⟩ := extractRes
  simp [transformRun, h]

/-- C7: the annotation operations only rewrite the stored graph objects
(`G_`, `G_data_`); the stored matrices and mixtures `adj_`, `map_`, `tcm_`,
`mixtures_` are unchanged by every `annotate_nodes`, `annotate_members` and
`annotate_graph` call. -/
theorem annotate_preserves_matrices (st : DGState) (name : String)
    (values : AnnValues) (kwargs : List (String × PyVal)) :
    ((annotate_nodes st name values).adj_ = st.adj_ ∧
     (annotate_nodes st name values).map_ = st.map_ ∧
     (annotate_nodes st name values).tcm_ = st.tcm_ ∧
     (annotate_nodes st name values).mixtures_ = st.mixtures_) ∧
    ((annotate_members st name values).adj_ = st.adj_ ∧
     (annotate_members st name values).map_ = st.map_ ∧
     (annotate_members st name values).tcm_ = st.tcm_ ∧
     (annotate_members st name values).mixtures_ = st.mixtures_) ∧
    ((annotate_graph st kwargs).adj_ = st.adj_ ∧
     (annotate_graph st kwargs).map_ = st.map_ ∧
     (annotate_graph st kwargs).tcm_ = st.tcm_ ∧
     (annotate_graph st kwargs).mixtures_ = st.mixtures_) :=
  ⟨⟨rfl, rfl, rfl, rfl⟩, ⟨rfl, rfl, rfl, rfl⟩, ⟨rfl, rfl, rfl, rfl⟩⟩

/-- C8: when the value list is shorter than the node list, `annotate_nodes`
runs to completion without raising (the embedded `zip` truncates), assigns
attribute `name` with the corresponding value to each of the first `k` nodes
(`k` the length of the value list) and leaves every later node's attribute
dict untouched, so a node that lacked the attribute still lacks it. -/
theorem annotate_nodes_truncates (st : DGState) (name : String)
    (vals : List PyVal) (hlen : vals.length < st.G_.nodes.length)
    (hnodup : (st.G_.nodes.map (fun nd => nd.1)).Nodup) :
    (∀ i, i < vals.length →
      (((annotate_nodes st name (AnnValues.list vals)).G_.nodes.getD i
          ("", [])).2).lookup name = some (vals.getD i PyVal.none)) ∧
    (∀ i, vals.length ≤ i → i < st.G_.nodes.length →
      (annotate_nodes st name (AnnValues.list vals)).G_.nodes.getD i ("", [])
        = st.G_.nodes.getD i ("", [])) := by
  have hG : (annotate_nodes st name (AnnValues.list vals)).G_.nodes =
      st.G_.nodes.map (fun nd =>
        match ((st.G_.nodes.map (fun nd => nd.1)).zip vals).lookup nd.1 with
        | some v => (nd.1, pyDictSet nd.2 name v)
        | none => nd) := rfl
  constructor
  · intro i hi
    have hiN : i < st.G_.nodes.length := hi.trans hlen
    have hiI : i < (st.G_.nodes.map (fun nd => nd.1)).length := by
      rw [List.length_map]
      exact hiN
    have h1 : (st.G_.nodes.map (fun nd => nd.1))[i] = (st.G_.nodes[i]).1 :=
      List.getElem_map _
    have hz : ((st.G_.nodes.map (fun nd => nd.1)).zip vals).lookup
        (st.G_.nodes[i]).1 = vals[i]? := by
      rw [← h1]
      exact lookup_zip_nodup _ _ _ hnodup hiI
    rw [List.getElem?_eq_getElem hi] at hz
    rw [hG, getD_map_of_lt _ _ _ _ hiN]
    simp only [hz]
    rw [lookup_pyDictSet, if_pos rfl, getD_eq_getElem_of_lt _ _ _ hi]
  · intro i hk hiN
    have hiI : i < (st.G_.nodes.map (fun nd => nd.1)).length := by
      rw [List.length_map]
      exact hiN
    have h1 : (st.G_.nodes.map (fun nd => nd.1))[i] = (st.G_.nodes[i]).1 :=
      List.getElem_map _
    have hz : ((st.G_.nodes.map (fun nd => nd.1)).zip vals).lookup
        (st.G_.nodes[i]).1 = vals[i]? := by
      rw [← h1]
      exact lookup_zip_nodup _ _ _ hnodup hiI
    rw [List.getElem?_eq_none hk] at hz
    rw [hG, getD_map_of_lt _ _ _ _ hiN]
    simp only [hz]
    rw [getD_eq_getElem_of_lt _ _ _ hiN]

/-- Witness for `annotate_nodes_truncates`: annotating the two-node state
with a single-element value list colors node 0 and leaves node 1 exactly as
it was, without raising. -/
theorem annotate_nodes_truncates_witness :
    (∀ i, i < ([PyVal.str "blue"] : List PyVal).length →
      (((annotate_nodes exState8 "color"
          (AnnValues.list [PyVal.str "blue"])).G_.nodes.getD i
            ("", [])).2).lookup "color"
        = some (([PyVal.str "blue"] : List PyVal).getD i PyVal.none)) ∧
    (∀ i, ([PyVal.str "blue"] : List PyVal).length ≤ i →
        i < exState8.G_.nodes.length →
      (annotate_nodes exState8 "color"
          (AnnValues.list [PyVal.str "blue"])).G_.nodes.getD i ("", [])
        = exState8.G_.nodes.getD i ("", [])) :=
  annotate_nodes_truncates exState8 "color" [PyVal.str "blue"]
    (by decide) (by decide)

/-- C9: no method of the class ever binds the attribute `G_inverse_`, so on
an instance built and used through any sequence of method calls,
`inverse_transform` raises `AttributeError` when it reads
`self.G_inverse_`. -/
theorem inverse_transform_raises_attributeError (calls : List DGMethod) :
    inverse_transformRun (assignedAttrs calls) =
      Except.error (PyErr.attributeError "G_inverse_") := by
  have h : "G_inverse_" ∉ assignedAttrs calls := by
    intro hmem
    rw [assignedAttrs, List.mem_flatMap] at hmem
    obtain ⟨m, -, hm⟩ := hmem
    cases m <;> revert hm <;> decide
  simp [inverse_transformRun, h]

/-- C6: every graph object existing before the graph phase of `fit` — in
particular the caller's graph — is unchanged afterwards: line 86 copies the
caller's graph and all later writes target the copy or objects freshly
derived from it. -/
theorem fit_preserves_caller_graph (h : Heap) (gref : Option Nat)
    (processed : Graph) (nodeData : List (String × List (String × PyVal)))
    (edgeData : List (String × List ((String × String) × PyVal)))
    (r : Nat) (hr : r < h.length) :
    ((fitGraphPhase h gref processed nodeData edgeData).1)[r]? = h[r]? := by
  cases gref with
  | none =>
    show (((h ++ [processed]).set h.length
        (applyEdgeData (applyNodeData processed nodeData) edgeData))[r]?
          : Option Graph) = h[r]?
    exact heap_write_fresh h processed _ r hr
  | some r0 =>
    show ((((h ++ [graphCopy h r0]) ++ [processed]).set
        (h ++ [graphCopy h r0]).length
        (applyEdgeData (applyNodeData processed nodeData) edgeData))[r]?
          : Option Graph) = h[r]?
    rw [heap_write_fresh _ _ _ r (by rw [List.length_append]; omega)]
    rw [List.getElem?_append, if_pos hr]

/-- Witness for `fit_preserves_caller_graph` on a one-object heap: the
caller's graph at reference 0 is untouched by the whole graph phase. -/
theorem fit_preserves_caller_graph_witness :
    ((fitGraphPhase [exGraph2] (some 0) exGraph [] []).1)[0]? =
      ([exGraph2] : Heap)[0]? :=
  fit_preserves_caller_graph [exGraph2] (some 0) exGraph [] [] 0 (by decide)

end Dyneusr
